import Mathlib

/-!
Verification of the command-execution and telemetry pipeline of the
`ohmytoolboxs` device-management toolbox.

The Rust sources are embedded shallowly:

* `VecDeque<DataPoint>` ring buffers become `List DataPoint` (front of the
  list = oldest element, `push_back` = append, `pop_front` = drop the head);
* `f64`/`f32` values produced by the metric parsers become `ℚ` (every
  arithmetic step the code performs on them — subtraction, division by a
  constant, multiplication by 100 — is exact on the actual inputs);
* `Instant`/`Duration` timestamps become `ℚ` numbers of seconds, with the
  current time passed in explicitly;
* external process invocations (`execute_adb_command`, spawned fastboot
  processes) become explicit inputs of type `Except String String` /
  `List String × Bool` supplied by the caller;
* `HashMap<String, String>` becomes an association list with first-match
  lookup (`mapGet`) and overwrite-or-append insertion (`mapInsert`).
-/

/-- One sample of a monitored metric (`DataPoint` in `adb_tools.rs`). -/
structure DataPoint where
  timestamp : ℚ
  value : ℚ
deriving Repr, DecidableEq

/-- The four bounded metric series plus the sampling-session anchor
(`TimeSeriesData` in `adb_tools.rs`). -/
structure TimeSeriesData where
  cpu_usage : List DataPoint
  memory_usage : List DataPoint
  battery_level : List DataPoint
  battery_temperature : List DataPoint
  start_time : Option ℚ
  max_points : Nat
deriving Repr, DecidableEq

/-- Models the eviction loop `while series.len() > capacity { series.pop_front(); }`
that appears in `add_time_series_data` and `trim_time_series_data`. -/
def evictFront {α : Type} (C : Nat) (xs : List α) : List α :=
  if _h : xs.length > C then evictFront C xs.tail else xs
termination_by xs.length
decreasing_by
  simp only [List.length_tail]
  omega

/-- Models one bounded append of `add_time_series_data`:
`push_back` followed by the front-eviction loop. -/
def pushBounded {α : Type} (C : Nat) (xs : List α) (x : α) : List α :=
  evictFront C (xs ++ [x])

/-- `isPrefixL pat l` — `pat` is a prefix of `l` (executable, structural). -/
def isPrefixL : List Char → List Char → Bool
  | [], _ => true
  | _ :: _, [] => false
  | p :: ps, c :: cs => p == c && isPrefixL ps cs

/-- Worker for `strSplitOn`: leftmost-first non-overlapping split of a
character list on a non-empty pattern, with enough fuel to scan the whole
input (every step consumes at least one character). -/
def splitOnGo (pat : List Char) : Nat → List Char → List Char → List (List Char)
  | _, acc, [] => [acc.reverse]
  | 0, acc, rest => [acc.reverse ++ rest]
  | fuel + 1, acc, c :: cs =>
    if isPrefixL pat (c :: cs) then
      acc.reverse :: splitOnGo pat fuel [] ((c :: cs).drop pat.length)
    else
      splitOnGo pat fuel (c :: acc) cs

/-- Substring split, the semantics shared by Rust `str::split(pat)` and the
(`find` + slice) idioms in the sources, for the non-empty patterns this code
uses. All string helpers below are structurally recursive so that concrete
runs evaluate inside the kernel. -/
def strSplitOn (s pat : String) : List String :=
  if pat.data = [] then [s]
  else (splitOnGo pat.data s.data.length [] s.data).map String.mk

/-- Models Rust `str::trim`: drop leading and trailing whitespace. -/
def strTrim (s : String) : String :=
  String.mk (((s.data.dropWhile Char.isWhitespace).reverse.dropWhile Char.isWhitespace).reverse)

/-- Models Rust `str::starts_with`. -/
def strStartsWith (s pat : String) : Bool :=
  isPrefixL pat.data s.data

/-- Models Rust `[str].join(sep)` / building newline-joined aggregates. -/
def strJoin (sep : String) (xs : List String) : String :=
  String.mk (List.intercalate sep.data (xs.map String.data))

/-- Models Rust `str::parse::<u64>` on the plain digit strings this code
feeds it. -/
def strToNat? (s : String) : Option Nat :=
  if s.data = [] then none
  else if s.data.all (fun c => c.isDigit) then
    some (s.data.foldl (fun n c => n * 10 + (c.toNat - '0'.toNat)) 0)
  else none

/-- Models Rust `str::lines`: split on `'\n'`, strip a trailing `'\r'` from
each line, and do not emit a final empty line after a trailing newline. -/
def rustLines (s : String) : List String :=
  let ls := strSplitOn s "\n"
  let ls := match ls.getLast? with
    | some "" => ls.dropLast
    | _ => ls
  ls.map (fun l => match l.data.getLast? with
    | some c => if c = '\r' then String.mk l.data.dropLast else l
    | none => l)

/-- Worker for `splitWhitespace`: accumulate the current token (reversed) and
emit it at every whitespace run boundary. -/
def splitWsGo : List Char → List Char → List (List Char)
  | acc, [] => if acc = [] then [] else [acc.reverse]
  | acc, c :: cs =>
    if c.isWhitespace then
      (if acc = [] then [] else [acc.reverse]) ++ splitWsGo [] cs
    else splitWsGo (c :: acc) cs

/-- Models Rust `str::split_whitespace`: whitespace-separated tokens, no
empty tokens. -/
def splitWhitespace (s : String) : List String :=
  (splitWsGo [] s.data).map String.mk

/-- Models Rust `str::contains(pat)` for a non-empty pattern:
true iff `pat` occurs as a substring. -/
def containsSubstr (s pat : String) : Bool :=
  (strSplitOn s pat).length != 1

/-- Splits `s` at the first occurrence of `pat` (models the
`s.find(pat)` / index-slicing idiom): returns the text before the first
occurrence and the text after it, or `none` when `pat` does not occur. -/
def splitAtFirst (s pat : String) : Option (String × String) :=
  match strSplitOn s pat with
  | [] => none
  | [_] => none
  | pre :: rest => some (pre, strJoin pat rest)

/-- First-match lookup in the association-list model of `HashMap<String, String>`. -/
def mapGet (m : List (String × String)) (k : String) : Option String :=
  m.lookup k

/-- Insertion in the association-list model of `HashMap<String, String>`:
overwrite the existing binding, otherwise append. -/
def mapInsert (m : List (String × String)) (k v : String) : List (String × String) :=
  if m.any (fun p => p.1 == k) then
    m.map (fun p => if p.1 == k then (k, v) else p)
  else
    m ++ [(k, v)]

/-- Models Rust `str::parse::<f64>()` on the plain decimal strings this code
produces and consumes (`"1.23"`, `"60"`): an optional fractional part after a
single dot. Exact, since the values the code parses are short decimals. -/
def parseDecimal? (s : String) : Option ℚ :=
  match strSplitOn s "." with
  | [w] => (strToNat? w).map (fun n => (n : ℚ))
  | [w, f] =>
    match strToNat? w, strToNat? f with
    | some wn, some fn => some ((wn : ℚ) + (fn : ℚ) / ((10 : ℚ) ^ f.length))
    | _, _ => none
  | _ => none

/-- Rounds to the nearest integer, ties to even — the rounding Rust's
`{:.N}` float formatting performs on these exactly-representable values. -/
def roundHalfEven (q : ℚ) : ℤ :=
  let f := ⌊q⌋
  let frac := q - (f : ℚ)
  if frac < 1/2 then f
  else if frac > 1/2 then f + 1
  else if f % 2 = 0 then f else f + 1

/-- Models Rust `format!("{:.1}", x)` for the non-negative values this code
formats. -/
def formatOneDecimal (q : ℚ) : String :=
  let n := (roundHalfEven (q * 10)).toNat
  s!"{n / 10}.{n % 10}"

/-- Models Rust `format!("{:.2}", x)` for the non-negative values this code
formats. -/
def formatTwoDecimals (q : ℚ) : String :=
  let n := (roundHalfEven (q * 100)).toNat
  let frac := n % 100
  let fracStr := if frac < 10 then "0" ++ toString frac else toString frac
  s!"{n / 100}." ++ fracStr

/-- One enumerated device (`AdbDevice` in `adb_tools.rs`). -/
structure AdbDevice where
  id : String
  status : String
  model : String
  product : String
  transport_id : String
deriving Repr, DecidableEq

/-- Models `extract_device_property` in `adb_tools.rs`: the text after the
first occurrence of `property`, up to (excluding) the next space, or up to the
end of the line when no space follows; empty when `property` does not occur. -/
def extract_device_property (line property : String) : String :=
  match splitAtFirst line property with
  | none => ""
  | some (_, after) => ((strSplitOn after " ").headD "")

/-- Models the parsing loop of `refresh_devices`: skip the first line, skip
blank lines and lines containing `"List of devices"`, whitespace-tokenize the
rest, and build a device from every line with at least two tokens. -/
def parseDevices (output : String) : List AdbDevice :=
  ((rustLines output).drop 1).filterMap (fun line =>
    if strTrim line = "" ∨ containsSubstr line "List of devices" then none
    else
      match splitWhitespace line with
      | id :: status :: _ =>
        some { id := id, status := status,
               model := extract_device_property line "model:",
               product := extract_device_property line "product:",
               transport_id := extract_device_property line "transport_id:" }
      | _ => none)

/-- The mutable state of the ADB tool that the verified pipeline touches
(the relevant fields of `AdbToolsState` in `adb_tools.rs`). -/
structure AdbToolsState where
  selected_device : Option String
  devices : List AdbDevice
  last_refresh : String
  monitoring_enabled : Bool
  monitor_interval : ℚ
  last_update_time : Option ℚ
  time_series : TimeSeriesData
  cpu_usage : String
  memory_info : List (String × String)
  battery_info : List (String × String)
  last_monitor_update : String
deriving Repr, DecidableEq

/-- The auto-connect / auto-clear selection update performed at the end of the
`Ok` branch of `refresh_devices`. -/
def refreshSelection (devices : List AdbDevice) (sel : Option String) : Option String :=
  if devices.length = 1 then
    match devices with
    | d :: _ => some d.id
    | [] => sel
  else if devices.isEmpty then none
  else
    match sel with
    | some id => if devices.any (fun d => d.id == id) then some id else none
    | none => none

/-- Models `refresh_devices` in `adb_tools.rs`. The result of
`execute_adb_command(&["devices", "-l"])` is passed in as `cmd`
(`Except.error` covers both a spawn failure and a non-success exit status,
exactly as `execute_adb_command` collapses them); `nowStr` is the formatted
current time written into `last_refresh`. On `Err` the function only logs. -/
def refresh_devices (cmd : Except String String) (nowStr : String) (st : AdbToolsState) : AdbToolsState :=
  match cmd with
  | .error _ => st
  | .ok output =>
    let devices := parseDevices output
    { st with devices := devices,
              selected_device := refreshSelection devices st.selected_device,
              last_refresh := nowStr }

/-- Models `extract_kb_value` in `adb_tools.rs`: first whitespace token of
the stored memory string, parsed as an unsigned integer. -/
def extract_kb_value (memory_str : String) : Option Nat :=
  (splitWhitespace memory_str).head?.bind strToNat?

/-- Models `format_bytes`'s scaling loop
`while size >= 1024.0 && unit_index < UNITS.len() - 1 { size /= 1024.0; unit_index += 1; }`.
Division of these magnitudes by 1024 is exact in `f64`, so `ℚ` is faithful. -/
def formatBytesLoop (size : ℚ) (unit_index : Nat) : ℚ × Nat :=
  if _h : size ≥ 1024 ∧ unit_index < 4 then formatBytesLoop (size / 1024) (unit_index + 1)
  else (size, unit_index)
termination_by 4 - unit_index
decreasing_by omega

/-- Models `format_bytes` in `adb_tools.rs`: 1024-based scaling over the units
`B`/`KB`/`MB`/`GB`/`TB`; the base unit prints the exact integer, every other
unit prints two decimals. -/
def format_bytes (bytes : Nat) : String :=
  let p := formatBytesLoop (bytes : ℚ) 0
  if p.2 = 0 then s!"{bytes} B"
  else formatTwoDecimals p.1 ++ " " ++ (["B", "KB", "MB", "GB", "TB"].getD p.2 "")

/-- Models `parse_cpu_load` in `adb_tools.rs`: the first numeric token after
the first occurrence of `"Load: "`, provided a space follows it. -/
def parse_cpu_load (cpu_usage : String) : Option ℚ :=
  match splitAtFirst cpu_usage "Load: " with
  | some (_, load_part) =>
    match splitAtFirst load_part " " with
    | some (pre, _) => parseDecimal? pre
    | none => none
  | none => none

/-- Models `parse_memory_usage` in `adb_tools.rs`: the decimal before the
first `'%'` of the `"Memory Usage"` entry. -/
def parse_memory_usage (memory_info : List (String × String)) : Option ℚ :=
  match mapGet memory_info "Memory Usage" with
  | some usage_str =>
    match splitAtFirst usage_str "%" with
    | some (pre, _) => parseDecimal? pre
    | none => none
  | none => none

/-- Models `parse_battery_level` in `adb_tools.rs`: the decimal before the
first `'%'` of the `"Battery Level"` entry. -/
def parse_battery_level (battery_info : List (String × String)) : Option ℚ :=
  match mapGet battery_info "Battery Level" with
  | some level_str =>
    match splitAtFirst level_str "%" with
    | some (pre, _) => parseDecimal? pre
    | none => none
  | none => none

/-- Models `parse_battery_temperature` in `adb_tools.rs`: the decimal before
the first `'°'` of the `"Temperature"` entry. -/
def parse_battery_temperature (battery_info : List (String × String)) : Option ℚ :=
  match mapGet battery_info "Temperature" with
  | some temp_str =>
    match splitAtFirst temp_str "°" with
    | some (pre, _) => parseDecimal? pre
    | none => none
  | none => none

/-- Models `add_time_series_data` in `adb_tools.rs`: when a sampling session
is anchored, each metric whose raw text parses is appended as a
`(elapsed, value)` point, followed by the per-series front-eviction loop;
metrics that fail to parse are skipped independently. `now` is the current
time (`start_time.elapsed()` is `now - start_time`). -/
def add_time_series_data (now : ℚ) (st : AdbToolsState) : AdbToolsState :=
  match st.time_series.start_time with
  | none => st
  | some t0 =>
    let elapsed := now - t0
    let C := st.time_series.max_points
    let ts := st.time_series
    let ts := match parse_cpu_load st.cpu_usage with
      | some v => { ts with cpu_usage := pushBounded C ts.cpu_usage ⟨elapsed, v⟩ }
      | none => ts
    let ts := match parse_memory_usage st.memory_info with
      | some v => { ts with memory_usage := pushBounded C ts.memory_usage ⟨elapsed, v⟩ }
      | none => ts
    let ts := match parse_battery_level st.battery_info with
      | some v => { ts with battery_level := pushBounded C ts.battery_level ⟨elapsed, v⟩ }
      | none => ts
    let ts := match parse_battery_temperature st.battery_info with
      | some v => { ts with battery_temperature := pushBounded C ts.battery_temperature ⟨elapsed, v⟩ }
      | none => ts
    { st with time_series := ts }

/-- Models `trim_time_series_data` in `adb_tools.rs`: run the front-eviction
loop on each of the four series with the current `max_points`. -/
def trim_time_series_data (st : AdbToolsState) : AdbToolsState :=
  let C := st.time_series.max_points
  { st with time_series := { st.time_series with
      cpu_usage := evictFront C st.time_series.cpu_usage,
      memory_usage := evictFront C st.time_series.memory_usage,
      battery_level := evictFront C st.time_series.battery_level,
      battery_temperature := evictFront C st.time_series.battery_temperature } }

/-- Models the `max_points` change handler in `show_device_monitor_tab`:
store the new bound, then trim. -/
def setMaxPoints (n : Nat) (st : AdbToolsState) : AdbToolsState :=
  trim_time_series_data { st with time_series := { st.time_series with max_points := n } }

/-- Models `clear_plot_data` in `adb_tools.rs`: empty the four series and
re-anchor `start_time` to now when monitoring is still enabled, clear it
otherwise. -/
def clear_plot_data (now : ℚ) (st : AdbToolsState) : AdbToolsState :=
  { st with time_series := { st.time_series with
      cpu_usage := [],
      memory_usage := [],
      battery_level := [],
      battery_temperature := [],
      start_time := if st.monitoring_enabled then some now else none } }

/-- The raw outputs of the external `adb shell` calls a sample pass issues
(passed in explicitly; `Except.error` is a failed invocation). The thermal,
network and process outputs only feed display fields outside the verified
state, so they are not carried here. -/
structure SampleEnv where
  loadavg : Except String String
  cpuinfo : Except String String
  meminfo : Except String String
  battery : Except String String
deriving Repr

/-- Models `get_cpu_usage` in `adb_tools.rs`: format the first three
load-average tokens into the `cpu_usage` display string, then append the
core count parsed from `/proc/cpuinfo` when it is positive. -/
def get_cpu_usage (loadavg cpuinfo : Except String String) (st : AdbToolsState) : AdbToolsState :=
  let st := match loadavg with
    | .ok output =>
      match splitWhitespace (strTrim output) with
      | p0 :: p1 :: p2 :: _ =>
        { st with cpu_usage := "Load: " ++ p0 ++ " " ++ p1 ++ " " ++ p2 ++ " (1m 5m 15m)" }
      | _ => st
    | .error _ => { st with cpu_usage := "CPU usage unavailable" }
  match cpuinfo with
  | .ok output =>
    let cpu_count := ((rustLines output).filter (fun l => strStartsWith l "processor")).length
    if cpu_count > 0 then { st with cpu_usage := st.cpu_usage ++ s!" | {cpu_count} cores" }
    else st
  | .error _ => st

/-- Models the `/proc/meminfo` parsing loop of `get_memory_info`: the first
ten lines, split at the first colon, trimmed, with the recognized keys
renamed and inserted. -/
def parseMeminfoMap (output : String) : List (String × String) :=
  ((rustLines output).take 10).foldl (fun mi line =>
    match splitAtFirst line ":" with
    | none => mi
    | some (k, v) =>
      let key := strTrim k
      let value := strTrim v
      if key = "MemTotal" then mapInsert mi "Total Memory" value
      else if key = "MemFree" then mapInsert mi "Free Memory" value
      else if key = "MemAvailable" then mapInsert mi "Available Memory" value
      else if key = "Buffers" then mapInsert mi "Buffers" value
      else if key = "Cached" then mapInsert mi "Cached" value
      else if key = "SwapTotal" then mapInsert mi "Swap Total" value
      else if key = "SwapFree" then mapInsert mi "Swap Free" value
      else mi) []

/-- Models the usage-percent step of `get_memory_info`: when both the total
and the available entries carry a leading integer, insert
`"Memory Usage" ↦ "{:.1}%" of (total - available) / total * 100`.
(The code subtracts in `u64` and divides in `f64`; on the meminfo values it
is applied to, `avail ≤ total` and the arithmetic is exact in `ℚ`.) -/
def addMemoryUsage (mi : List (String × String)) : List (String × String) :=
  match (mapGet mi "Total Memory").bind extract_kb_value,
        (mapGet mi "Available Memory").bind extract_kb_value with
  | some total, some avail =>
    let used := total - avail
    let usage_percent : ℚ := (used : ℚ) / (total : ℚ) * 100
    mapInsert mi "Memory Usage" (formatOneDecimal usage_percent ++ "%")
  | _, _ => mi

/-- Models `get_memory_info` in `adb_tools.rs`: clear the map, parse the
meminfo text on success, then compute the usage percentage. -/
def get_memory_info (meminfo : Except String String) (st : AdbToolsState) : AdbToolsState :=
  let mi := match meminfo with
    | .ok output => parseMeminfoMap output
    | .error _ => []
  { st with memory_info := addMemoryUsage mi }

/-- Models `get_battery_monitoring_info` in `adb_tools.rs`: clear the map,
then for each `key: value` line of the dump insert the recognized entries
(`level` as a percent string, `temperature` divided by 10 with one decimal,
`voltage` divided by 1000 with two decimals, the rest verbatim). -/
def get_battery_monitoring_info (battery : Except String String) (st : AdbToolsState) : AdbToolsState :=
  let bi : List (String × String) := []
  let bi := match battery with
    | .error _ => bi
    | .ok output =>
      (rustLines output).foldl (fun bi line =>
        match splitAtFirst line ":" with
        | none => bi
        | some (k, v) =>
          let key := strTrim k
          let value := strTrim v
          if key = "level" then mapInsert bi "Battery Level" (value ++ "%")
          else if key = "temperature" then
            match parseDecimal? value with
            | some temp => mapInsert bi "Temperature" (formatOneDecimal (temp / 10) ++ "°C")
            | none => bi
          else if key = "voltage" then
            match parseDecimal? value with
            | some voltage => mapInsert bi "Voltage" (formatTwoDecimals (voltage / 1000) ++ "V")
            | none => bi
          else if key = "health" then mapInsert bi "Health" value
          else if key = "status" then mapInsert bi "Status" value
          else if key = "AC powered" then mapInsert bi "AC Powered" value
          else if key = "USB powered" then mapInsert bi "USB Powered" value
          else bi) bi
  { st with battery_info := bi }

/-- Models `update_monitoring_data` in `adb_tools.rs`: with no selected
device the pass is a no-op; otherwise refresh the raw metric fields from the
environment, stamp `last_monitor_update`, and append to the time series. -/
def update_monitoring_data (env : SampleEnv) (now : ℚ) (nowStr : String) (st : AdbToolsState) : AdbToolsState :=
  match st.selected_device with
  | none => st
  | some _ =>
    let st := get_cpu_usage env.loadavg env.cpuinfo st
    let st := get_memory_info env.meminfo st
    let st := get_battery_monitoring_info env.battery st
    let st := { st with last_monitor_update := nowStr }
    add_time_series_data now st

/-- Models the per-tick interval gate at the top of `show_adb_tools`
(`adb_tools.rs` lines 279–296). Returns the new state together with the
number of sample passes (`update_monitoring_data` calls) the tick ran. -/
def monitorTick (env : SampleEnv) (now : ℚ) (nowStr : String) (st : AdbToolsState) : AdbToolsState × Nat :=
  if st.monitoring_enabled then
    let should_update : Bool := match st.last_update_time with
      | some last_time => decide (now - last_time ≥ st.monitor_interval)
      | none => true
    if should_update then
      let st := update_monitoring_data env now nowStr st
      let st := { st with last_update_time := some now }
      let st := if st.time_series.start_time.isNone then
          { st with time_series := { st.time_series with start_time := some now } }
        else st
      (st, 1)
    else (st, 0)
  else (st, 0)

/-- Models the Start/Stop Monitoring button handler in
`show_device_monitor_tab` (`adb_tools.rs` lines 671–679): flip the flag;
when turning on, anchor the session, run one immediate pass and stamp
`last_update_time`; when turning off, clear only `last_update_time`. -/
def toggleMonitoring (env : SampleEnv) (now : ℚ) (nowStr : String) (st : AdbToolsState) : AdbToolsState :=
  let st := { st with monitoring_enabled := !st.monitoring_enabled }
  if st.monitoring_enabled then
    let st := { st with time_series := { st.time_series with start_time := some now } }
    let st := update_monitoring_data env now nowStr st
    { st with last_update_time := some now }
  else
    { st with last_update_time := none }

/-- The final result of a streaming fastboot run
(`FastbootResult` in `fastboot_tools.rs`). -/
structure FastbootResult where
  success : Bool
  output : String
  error : Option String
deriving Repr, DecidableEq

/-- One step of the channel-drain loop of `execute_with_output` in
`fastboot_tools.rs`: record the callback invocation, then file the line as an
error line when it contains `"FAILED"` or `"error"` and as an output line
otherwise. The accumulator is (callback invocations, output lines, error
lines). -/
def classifyStep (acc : List String × List String × List String) (line : String) :
    List String × List String × List String :=
  if containsSubstr line "FAILED" ∨ containsSubstr line "error" then
    (acc.1 ++ [line], acc.2.1, acc.2.2 ++ [line])
  else
    (acc.1 ++ [line], acc.2.1 ++ [line], acc.2.2)

/-- Models the channel-drain loop of `execute_with_output`: fold
`classifyStep` over the received lines. -/
def collectLines (lines : List String) : List String × List String × List String :=
  lines.foldl classifyStep ([], [], [])

/-- Models `execute_with_output` in `fastboot_tools.rs` after process spawn:
`lines` is the interleaved sequence the two reader threads deliver through
the channel, `exitSuccess` the process exit status obtained afterwards by
`child.wait()`. Returns the sequence of `callback` invocations (made during
the drain loop, before the result is built) and the final result. -/
def execute_with_output (lines : List String) (exitSuccess : Bool) : List String × FastbootResult :=
  let c := collectLines lines
  let output_lines := c.2.1
  let error_lines := c.2.2
  (c.1,
   { success := exitSuccess,
     output := strJoin "\n" output_lines,
     error := if error_lines.isEmpty then none
              else some (strJoin "\n" error_lines) })

/-- A concrete tool state used to instantiate the general theorems below:
monitoring is enabled with a 2-second interval, the last sample pass ran at
time 0, one CPU sample is recorded, and device `devC` is selected. -/
def stW : AdbToolsState :=
  { selected_device := some "devC",
    devices := [],
    last_refresh := "10:00:00",
    monitoring_enabled := true,
    monitor_interval := 2,
    last_update_time := some 0,
    time_series :=
      { cpu_usage := [⟨0, 1/2⟩],
        memory_usage := [],
        battery_level := [],
        battery_temperature := [],
        start_time := some 0,
        max_points := 5 },
    cpu_usage := "",
    memory_info := [],
    battery_info := [],
    last_monitor_update := "" }

/-- A concrete sample environment used to instantiate the general theorems
below. -/
def envW : SampleEnv :=
  { loadavg := Except.ok "0.50 0.40 0.30 1/100 200",
    cpuinfo := Except.ok "processor\t: 0",
    meminfo := Except.ok "MemTotal: 1000 kB\nMemAvailable: 400 kB",
    battery := Except.ok "level: 87\ntemperature: 250" }

theorem evictFront_eq_drop {α : Type} (C : Nat) (xs : List α) :
    evictFront C xs = xs.drop (xs.length - C) := by
  induction xs with
  | nil => rw [evictFront]; simp
  | cons a l ih =>
    rw [evictFront]
    by_cases h : (a :: l).length > C
    · rw [dif_pos h]
      simp only [List.tail_cons]
      rw [ih]
      have hlen : (a :: l).length - C = (l.length - C) + 1 := by
        simp only [List.length_cons] at h ⊢
        omega
      rw [hlen, List.drop_succ_cons]
    · rw [dif_neg h]
      have hlen : (a :: l).length - C = 0 := by
        simp only [List.length_cons] at h ⊢
        omega
      rw [hlen, List.drop_zero]

theorem pushBounded_drop {α : Type} (C : Nat) (ys : List α) (x : α) :
    pushBounded C (ys.drop (ys.length - C)) x = (ys ++ [x]).drop ((ys ++ [x]).length - C) := by
  unfold pushBounded
  rw [evictFront_eq_drop]
  rw [List.drop_append_eq_append_drop, List.drop_drop, List.drop_append_eq_append_drop]
  congr 1
  · congr 1
    simp only [List.length_append, List.length_drop, List.length_singleton]
    omega
  · congr 1
    simp only [List.length_append, List.length_drop, List.length_singleton]
    omega

theorem foldl_pushBounded {α : Type} (C : Nat) (ps : List α) :
    ps.foldl (pushBounded C) [] = ps.drop (ps.length - C) := by
  induction ps using List.reverseRecOn with
  | nil => simp
  | append_singleton qs x ih =>
    rw [List.foldl_append, List.foldl_cons, List.foldl_nil, ih, pushBounded_drop]

theorem lookup_map_replace (m : List (String × String)) (k v : String)
    (h : m.any (fun p => p.1 == k) = true) :
    (m.map (fun p => if p.1 == k then (k, v) else p)).lookup k = some v := by
  induction m with
  | nil => simp at h
  | cons p l ih =>
    by_cases hk : p.1 = k
    · have hb : (p.1 == k) = true := beq_iff_eq.mpr hk
      rw [List.map_cons, if_pos hb]
      simp [List.lookup]
    · have h2 : l.any (fun q => q.1 == k) = true := by
        simp only [List.any_cons, Bool.or_eq_true, beq_iff_eq] at h
        rcases h with h | h
        · exact absurd h hk
        · simpa using h
      have hb : ¬ ((p.1 == k) = true) := by
        simp only [beq_iff_eq]
        exact hk
      have hk2 : (k == p.1) = false := by
        simp only [beq_eq_false_iff_ne]
        exact fun e => hk e.symm
      rw [List.map_cons, if_neg hb]
      rw [List.lookup, hk2]
      exact ih h2

theorem lookup_append_new (m : List (String × String)) (k v : String)
    (h : m.any (fun p => p.1 == k) = false) :
    (m ++ [(k, v)]).lookup k = some v := by
  induction m with
  | nil => simp [List.lookup]
  | cons p l ih =>
    simp only [List.any_cons, Bool.or_eq_false_iff, beq_eq_false_iff_ne] at h
    have hk2 : (k == p.1) = false := by
      simp only [beq_eq_false_iff_ne]
      exact fun e => h.1 e.symm
    simp only [List.cons_append, List.lookup, hk2]
    exact ih (by simp only [List.any_eq_false] at h ⊢; intro q hq; exact h.2 q hq)

theorem mapGet_mapInsert (m : List (String × String)) (k v : String) :
    mapGet (mapInsert m k v) k = some v := by
  unfold mapGet mapInsert
  by_cases h : m.any (fun p => p.1 == k) = true
  · rw [if_pos h]
    exact lookup_map_replace m k v h
  · rw [if_neg h]
    exact lookup_append_new m k v (by revert h; cases m.any (fun p => p.1 == k) <;> simp)

theorem refreshSelection_single (d : AdbDevice) (sel : Option String) :
    refreshSelection [d] sel = some d.id := by
  simp [refreshSelection]

theorem refreshSelection_empty (sel : Option String) :
    refreshSelection [] sel = none := by
  simp [refreshSelection]

theorem refreshSelection_multi_some (ds : List AdbDevice) (id : String) (h : 2 ≤ ds.length) :
    refreshSelection ds (some id) = if ds.any (fun d => d.id == id) then some id else none := by
  unfold refreshSelection
  have h1 : ¬ ds.length = 1 := by omega
  have h2 : ds.isEmpty = false := by
    cases ds with
    | nil => simp at h
    | cons a l => simp
  simp [h1, h2]

theorem refreshSelection_multi_none (ds : List AdbDevice) (h : 2 ≤ ds.length) :
    refreshSelection ds none = none := by
  unfold refreshSelection
  have h1 : ¬ ds.length = 1 := by omega
  have h2 : ds.isEmpty = false := by
    cases ds with
    | nil => simp at h
    | cons a l => simp
  simp [h1, h2]

theorem foldl_classifyStep (lines : List String) : ∀ cb outs errs : List String,
    lines.foldl classifyStep (cb, outs, errs) =
      (cb ++ lines,
       outs ++ lines.filter (fun l => !(containsSubstr l "FAILED" || containsSubstr l "error")),
       errs ++ lines.filter (fun l => containsSubstr l "FAILED" || containsSubstr l "error")) := by
  induction lines with
  | nil =>
    intro cb outs errs
    simp
  | cons l ls ih =>
    intro cb outs errs
    rw [List.foldl_cons]
    by_cases h : containsSubstr l "FAILED" ∨ containsSubstr l "error"
    · have hb : (containsSubstr l "FAILED" || containsSubstr l "error") = true := by
        rcases h with h | h <;> simp [h]
      have hstep : classifyStep (cb, outs, errs) l = (cb ++ [l], outs, errs ++ [l]) := by
        simp [classifyStep, h]
      rw [hstep, ih]
      simp only [List.filter_cons, hb, Bool.not_true, List.append_assoc,
        List.singleton_append, Prod.mk.injEq, true_and]
      constructor
      · rcases h with h | h <;> simp [h]
      · simp
    · have hb : (containsSubstr l "FAILED" || containsSubstr l "error") = false := by
        simp only [not_or, Bool.not_eq_true] at h
        simp [h.1, h.2]
      have hstep : classifyStep (cb, outs, errs) l = (cb ++ [l], outs ++ [l], errs) := by
        simp [classifyStep, h]
      rw [hstep, ih]
      simp only [not_or, Bool.not_eq_true] at h
      simp [List.filter_cons, hb, h.1, h.2]

theorem collectLines_eq (lines : List String) :
    collectLines lines =
      (lines,
       lines.filter (fun l => !(containsSubstr l "FAILED" || containsSubstr l "error")),
       lines.filter (fun l => containsSubstr l "FAILED" || containsSubstr l "error")) := by
  unfold collectLines
  rw [foldl_classifyStep]
  simp

/-- **C1.** For every metric series with capacity `C` and every sequence `ps`
of sample appends performed by the sampler — each append being `push_back`
followed by the `while len > max_points { pop_front }` loop of
`add_time_series_data`, i.e. `pushBounded` — the series after the whole
sequence has length at most `C`, its length is `min (number appended) C`,
and it consists of exactly the most recently appended samples in their
original append order (`List.drop` keeps the final elements in order). -/
theorem series_bounded_retains_newest (C : Nat) (ps : List DataPoint) :
    (ps.foldl (pushBounded C) []).length ≤ C ∧
    (ps.foldl (pushBounded C) []).length = min ps.length C ∧
    ps.foldl (pushBounded C) [] = ps.drop (ps.length - C) := by
  refine ⟨?_, ?_, foldl_pushBounded C ps⟩ <;>
    rw [foldl_pushBounded C ps] <;> simp only [List.length_drop] <;> omega

/-- **C4.** In a streaming run, the `callback` is invoked exactly once per
received line, in order, during the drain loop (before the result is built);
a line is filed as an error line iff it contains `"FAILED"` or `"error"`
(case-sensitive substring) and as an output line otherwise; each class is
joined with `"\n"`; in particular the line sequence `["ok", "FAILED: x"]`
aggregates to output `"ok"` and error `"FAILED: x"`. -/
theorem streaming_classification (lines : List String) (exitSuccess : Bool) :
    (execute_with_output lines exitSuccess).1 = lines ∧
    (execute_with_output lines exitSuccess).2.output =
      strJoin "\n" (lines.filter (fun l => !(containsSubstr l "FAILED" || containsSubstr l "error"))) ∧
    (execute_with_output lines exitSuccess).2.error =
      (if (lines.filter (fun l => containsSubstr l "FAILED" || containsSubstr l "error")).isEmpty then none
       else some (strJoin "\n" (lines.filter (fun l => containsSubstr l "FAILED" || containsSubstr l "error")))) ∧
    execute_with_output ["ok", "FAILED: x"] exitSuccess =
      (["ok", "FAILED: x"],
       { success := exitSuccess, output := "ok", error := some "FAILED: x" }) := by
  refine ⟨?_, ?_, ?_, ?_⟩
  · simp [execute_with_output, collectLines_eq]
  · simp [execute_with_output, collectLines_eq]
  · simp [execute_with_output, collectLines_eq]
  · cases exitSuccess <;> with_unfolding_all decide

/-- **C5.** The `success` field of a streaming run's result equals the
spawned process's exit status, for every set of received lines — including
lines containing `"FAILED"` or `"error"` — so it is independent of line
classification. -/
theorem streaming_success_is_exit_status (lines : List String) (exitSuccess : Bool) :
    (execute_with_output lines exitSuccess).2.success = exitSuccess ∧
    (execute_with_output ["FAILED: boom", "error: x"] true).2.success = true ∧
    (execute_with_output ["all good"] false).2.success = false :=
  ⟨rfl, rfl, rfl⟩

/-- **C6.** Changing `max_points` to `n` (store the bound, then
`trim_time_series_data`) leaves each of the four series holding exactly its
newest `min (previous length) n` samples in order: a value `n` smaller than
a series' length immediately reduces that series to its newest `n` samples,
and a larger value changes nothing (never adds or restores samples). -/
theorem set_capacity_trims_all_series (n : Nat) (st : AdbToolsState) :
    ((setMaxPoints n st).time_series.max_points = n) ∧
    ((setMaxPoints n st).time_series.cpu_usage =
      st.time_series.cpu_usage.drop (st.time_series.cpu_usage.length - n) ∧
     (setMaxPoints n st).time_series.cpu_usage.length = min st.time_series.cpu_usage.length n) ∧
    ((setMaxPoints n st).time_series.memory_usage =
      st.time_series.memory_usage.drop (st.time_series.memory_usage.length - n) ∧
     (setMaxPoints n st).time_series.memory_usage.length = min st.time_series.memory_usage.length n) ∧
    ((setMaxPoints n st).time_series.battery_level =
      st.time_series.battery_level.drop (st.time_series.battery_level.length - n) ∧
     (setMaxPoints n st).time_series.battery_level.length = min st.time_series.battery_level.length n) ∧
    ((setMaxPoints n st).time_series.battery_temperature =
      st.time_series.battery_temperature.drop (st.time_series.battery_temperature.length - n) ∧
     (setMaxPoints n st).time_series.battery_temperature.length = min st.time_series.battery_temperature.length n) := by
  refine ⟨rfl, ⟨?_, ?_⟩, ⟨?_, ?_⟩, ⟨?_, ?_⟩, ⟨?_, ?_⟩⟩ <;>
    simp only [setMaxPoints, trim_time_series_data, evictFront_eq_drop, List.length_drop] <;>
    omega

/-- **C10.** When the device-listing command fails — the executable cannot
be spawned or it exits with non-success status, both of which
`execute_adb_command` reports as `Err` — `refresh_devices` leaves the entire
registry state unchanged: the device list, the selection and the
last-refresh timestamp (indeed every field) keep their prior values. -/
theorem refresh_devices_error_keeps_state (e : String) (nowStr : String) (st : AdbToolsState) :
    refresh_devices (Except.error e) nowStr st = st := rfl

/-- **C2.** After every `refresh_devices` whose listing command succeeded:
if exactly one device was parsed, the selection is that device's identifier;
if zero devices were parsed, the selection is `none`; if two or more were
parsed, the prior selection is kept iff its identifier appears in the new
list and is otherwise cleared (a `none` prior selection stays `none`); and
the refresh never picks one of several devices as a new selection — the
resulting selection is the prior one, `none`, or the sole parsed device. -/
theorem refresh_selection_policy (output nowStr : String) (st : AdbToolsState) :
    (∀ d, parseDevices output = [d] →
      (refresh_devices (Except.ok output) nowStr st).selected_device = some d.id) ∧
    (parseDevices output = [] →
      (refresh_devices (Except.ok output) nowStr st).selected_device = none) ∧
    (2 ≤ (parseDevices output).length →
      (∀ id, st.selected_device = some id →
        (refresh_devices (Except.ok output) nowStr st).selected_device =
          (if (parseDevices output).any (fun d => d.id == id) then some id else none)) ∧
      (st.selected_device = none →
        (refresh_devices (Except.ok output) nowStr st).selected_device = none)) ∧
    ((refresh_devices (Except.ok output) nowStr st).selected_device = st.selected_device ∨
     (refresh_devices (Except.ok output) nowStr st).selected_device = none ∨
     (∃ d, parseDevices output = [d] ∧
       (refresh_devices (Except.ok output) nowStr st).selected_device = some d.id)) := by
  have hsel : (refresh_devices (Except.ok output) nowStr st).selected_device
      = refreshSelection (parseDevices output) st.selected_device := rfl
  refine ⟨?_, ?_, ?_, ?_⟩
  · intro d hd
    rw [hsel, hd]
    exact refreshSelection_single d _
  · intro hnil
    rw [hsel, hnil]
    exact refreshSelection_empty _
  · intro hlen
    constructor
    · intro id hid
      rw [hsel, hid]
      exact refreshSelection_multi_some _ id hlen
    · intro hid
      rw [hsel, hid]
      exact refreshSelection_multi_none _ hlen
  · rw [hsel]
    rcases hds : parseDevices output with _ | ⟨d, _ | ⟨d2, rest⟩⟩
    · right; left
      exact refreshSelection_empty _
    · right; right
      exact ⟨d, rfl, refreshSelection_single d _⟩
    · have hlen : 2 ≤ (d :: d2 :: rest).length := by
        simp only [List.length_cons]
        omega
      rcases hselv : st.selected_device with _ | id
      · right; left
        exact refreshSelection_multi_none _ hlen
      · rw [refreshSelection_multi_some _ id hlen]
        by_cases hany : (d :: d2 :: rest).any (fun d => d.id == id) = true
        · left
          rw [if_pos hany]
        · right; left
          rw [if_neg hany]

/-- Witness for `refresh_selection_policy`: a concrete refresh that parses
two devices while the prior selection `devC` is absent from the new list, so
the selection is cleared. -/
theorem refresh_selection_policy_witness :
    (refresh_devices (Except.ok "List of devices attached\ndevA device\ndevB device")
        "10:01:00" stW).selected_device = none := by
  have h := ((refresh_selection_policy "List of devices attached\ndevA device\ndevB device"
      "10:01:00" stW).2.2.1 (by with_unfolding_all decide)).1 "devC" rfl
  rw [h]
  with_unfolding_all decide

/-- **C3.** While monitoring is enabled, on every UI tick: when the elapsed
time since `last_update_time` is strictly below `monitor_interval`, no
sample pass runs and the state (hence every series) is unchanged; when it is
at least the interval, or `last_update_time` is unset, exactly one sample
pass runs and `last_update_time` is set to the current time — in particular
a tick arriving arbitrarily long after the interval still runs exactly one
pass (no catch-up). -/
theorem monitor_interval_gate (env : SampleEnv) (now : ℚ) (nowStr : String)
    (st : AdbToolsState) (hen : st.monitoring_enabled = true) :
    (∀ last, st.last_update_time = some last → now - last < st.monitor_interval →
      monitorTick env now nowStr st = (st, 0)) ∧
    ((st.last_update_time = none ∨
      (∃ last, st.last_update_time = some last ∧ st.monitor_interval ≤ now - last)) →
      (monitorTick env now nowStr st).2 = 1 ∧
      (monitorTick env now nowStr st).1.last_update_time = some now) := by
  constructor
  · intro last hlast hlt
    have hdec : decide (now - last ≥ st.monitor_interval) = false :=
      decide_eq_false (not_le.mpr hlt)
    simp [monitorTick, hen, hlast, hdec]
  · intro hcond
    have hsu : (match st.last_update_time with
        | some last_time => decide (now - last_time ≥ st.monitor_interval)
        | none => true) = true := by
      rcases hcond with h | ⟨last, hlast, hge⟩
      · rw [h]
      · rw [hlast]
        exact decide_eq_true hge
    constructor
    · simp only [monitorTick, hen, if_true, hsu]
    · simp only [monitorTick, hen, if_true, hsu]
      split <;> rfl

/-- Witness for `monitor_interval_gate`: with a 2-second interval and the
last pass at time 0, a tick at time 1 is a no-op. -/
theorem monitor_interval_gate_witness :
    monitorTick envW 1 "10:00:01" stW = (stW, 0) :=
  (monitor_interval_gate envW 1 "10:00:01" stW rfl).1 0 rfl (by with_unfolding_all decide)

/-- **C9.** Toggling monitoring off clears only the last-sample anchor: the
flag flips to disabled, `last_update_time` becomes `none`, and everything
else — in particular the four metric series, the session anchor and the
capacity — keeps its value. Only the explicit clear operation empties the
four series, and that clear sets `start_time` to the current time when
monitoring is still enabled and to `none` otherwise. -/
theorem toggle_off_preserves_history (env : SampleEnv) (now : ℚ) (nowStr : String)
    (st : AdbToolsState) (hen : st.monitoring_enabled = true) :
    (toggleMonitoring env now nowStr st).monitoring_enabled = false ∧
    (toggleMonitoring env now nowStr st).last_update_time = none ∧
    (toggleMonitoring env now nowStr st).time_series = st.time_series ∧
    toggleMonitoring env now nowStr st =
      { st with monitoring_enabled := false, last_update_time := none } ∧
    (∀ (now2 : ℚ) (st2 : AdbToolsState),
      (clear_plot_data now2 st2).time_series.cpu_usage = [] ∧
      (clear_plot_data now2 st2).time_series.memory_usage = [] ∧
      (clear_plot_data now2 st2).time_series.battery_level = [] ∧
      (clear_plot_data now2 st2).time_series.battery_temperature = [] ∧
      (clear_plot_data now2 st2).time_series.start_time =
        (if st2.monitoring_enabled then some now2 else none)) := by
  have htog : toggleMonitoring env now nowStr st =
      { st with monitoring_enabled := false, last_update_time := none } := by
    simp [toggleMonitoring, hen]
  refine ⟨?_, ?_, ?_, htog, ?_⟩
  · rw [htog]
  · rw [htog]
  · rw [htog]
  · intro now2 st2
    refine ⟨rfl, rfl, rfl, rfl, rfl⟩

/-- Witness for `toggle_off_preserves_history`: stopping monitoring on the
concrete state keeps its one recorded CPU sample, and an explicit clear
empties the series. -/
theorem toggle_off_preserves_history_witness :
    (toggleMonitoring envW 3 "10:00:03" stW).time_series = stW.time_series ∧
    (clear_plot_data 3 stW).time_series.cpu_usage = [] :=
  ⟨(toggle_off_preserves_history envW 3 "10:00:03" stW rfl).2.2.1,
   ((toggle_off_preserves_history envW 3 "10:00:03" stW rfl).2.2.2.2 3 stW).1⟩

set_option maxRecDepth 10000 in
/-- **C7.** The memory-usage computation implements
`usage_percent = (total - available) / total * 100` over the parsed
total/available entries of the memory-info map, storing it with one decimal
and a percent sign; in particular the input `MemTotal: 1000 kB` /
`MemAvailable: 400 kB` produces a memory-usage metric of `60`. -/
theorem memory_usage_formula (mi : List (String × String)) (total avail : Nat)
    (htot : (mapGet mi "Total Memory").bind extract_kb_value = some total)
    (hav : (mapGet mi "Available Memory").bind extract_kb_value = some avail) :
    mapGet (addMemoryUsage mi) "Memory Usage" =
      some (formatOneDecimal (((total - avail : Nat) : ℚ) / (total : ℚ) * 100) ++ "%") ∧
    parse_memory_usage (get_memory_info
        (Except.ok "MemTotal: 1000 kB\nMemAvailable: 400 kB") stW).memory_info = some 60 := by
  constructor
  · unfold addMemoryUsage
    rw [htot, hav]
    exact mapGet_mapInsert mi "Memory Usage" _
  · with_unfolding_all decide

set_option maxRecDepth 10000 in
/-- Witness for `memory_usage_formula` on the map parsed from the concrete
meminfo text. -/
theorem memory_usage_formula_witness :
    mapGet (addMemoryUsage (parseMeminfoMap "MemTotal: 1000 kB\nMemAvailable: 400 kB"))
        "Memory Usage" =
      some (formatOneDecimal (((1000 - 400 : Nat) : ℚ) / ((1000 : Nat) : ℚ) * 100) ++ "%") :=
  (memory_usage_formula (parseMeminfoMap "MemTotal: 1000 kB\nMemAvailable: 400 kB") 1000 400
      (by with_unfolding_all decide) (by with_unfolding_all decide)).1

/-- **C8.** `format_bytes` scales with 1024-based units `B`/`KB`/`MB`/`GB`/`TB`,
printing two decimals for every unit except the base unit `B`, which prints
the exact integer: every value below 1024 prints as the integer followed by
`" B"`; 1536 prints `"1.50 KB"` and 512 prints `"512 B"`; the higher units
are exercised at 1024², 1024³ and 1024⁴, and the loop never scales past TB. -/
theorem format_bytes_spec (b : Nat) (hb : b < 1024) :
    format_bytes b = s!"{b} B" ∧
    format_bytes 1536 = "1.50 KB" ∧
    format_bytes 512 = "512 B" ∧
    format_bytes (1024 * 1024) = "1.00 MB" ∧
    format_bytes (1024 * 1024 * 1024) = "1.00 GB" ∧
    format_bytes (1024 * 1024 * 1024 * 1024) = "1.00 TB" ∧
    format_bytes (1536 * 1024 * 1024 * 1024 * 1024) = "1536.00 TB" := by
  refine ⟨?_, ?_, ?_, ?_, ?_, ?_, ?_⟩
  · have hq : ¬ ((b : ℚ) ≥ 1024 ∧ (0 : Nat) < 4) := by
      rintro ⟨h1, _⟩
      have h2 : (b : ℚ) < 1024 := by exact_mod_cast hb
      linarith
    unfold format_bytes
    rw [formatBytesLoop, dif_neg hq]
    simp
  all_goals with_unfolding_all decide

/-- Witness for `format_bytes_spec`: the base unit prints the exact integer
at 512. -/
theorem format_bytes_spec_witness :
    format_bytes 512 = "512 B" :=
  (format_bytes_spec 512 (by norm_num)).2.2.1
